import Mathlib

/-!
Shallow embedding of the pingdoh audition server core
(`src/server/routes.ts`, `src/server/storage.ts`, `src/shared/schema.ts`)
and proofs about the claims of its specification.

Machine numbers: JavaScript numbers that the code only ever compares, scales
and rounds are modelled as `ℚ`; `Math.round`/`Math.floor` produce `ℤ`.
Dates (`created_at`) are modelled as `ℕ` timestamps.
-/

namespace Pingdoh

/-- `status` field of a Recording (`src/shared/schema.ts`, `recordings.status`). -/
inductive RecStatus where
  | pending
  | under_review
  | scored
  | closed
deriving DecidableEq, Repr

/-- One element of the remote evaluation payload's `results` array; the code
reads only `final_score` (`routes.ts:175`, `Number(r.final_score ?? 0)`);
an absent `final_score` is `none`. -/
structure ResultItem where
  final_score : Option ℚ
deriving DecidableEq, Repr

/-- A parsed remote evaluation payload.  The code reads `finalResult.status`
(absent modelled as `""`) and `finalResult.results`; a missing or non-array
`results` field is `none` (the code's `Array.isArray` guard, `routes.ts:174`). -/
structure EvalPayload where
  status : String
  results : Option (List ResultItem)
deriving DecidableEq, Repr

/-- The last-seen poll error recorded by the poll loop (`routes.ts:157,162`):
either a non-success HTTP response (status and extracted detail string) or a
thrown transport error. -/
inductive PollErr where
  | http (status : ℕ) (detail : String)
  | thrown (msg : String)
deriving DecidableEq, Repr

/-- The last-seen upload error recorded by the upload retry loop
(`routes.ts:103,110`). -/
inductive UploadErr where
  | http (status : ℕ) (body : String)
  | thrown (msg : String)
deriving DecidableEq, Repr

/-- The `ai_result` field: either a raw remote payload (`routes.ts:187`) or one
of the structured diagnostic objects the code writes (`routes.ts:82,118,125,170,
192,249`); each constructor keeps the data the corresponding object literal
embeds. -/
inductive AiResult where
  | payload (p : EvalPayload)
  | aiBaseMissing
  | uploadFailed (detail : Option UploadErr)
  | noTaskId
  | pollTimeout (detail : Option PollErr)
  | uncaught (msg : String)
  | convFailed (detail : String)
deriving DecidableEq, Repr

/-- `true` exactly on the timeout diagnostic shape (`{ error: "AI polling timed
out", ... }`, `routes.ts:170`). -/
def AiResult.isPollTimeoutDiag : AiResult → Bool
  | .pollTimeout _ => true
  | _ => false

/-- A Recording (`src/shared/schema.ts` type `Recording`, plus the `ai_result`
field that `MemStorage.createRecording` initialises, `storage.ts:91`). -/
structure Recording where
  id : String
  email : String
  audio_url : String
  status : RecStatus
  ai_score : Option ℤ
  ai_result : Option AiResult
  created_at : ℕ
deriving DecidableEq, Repr

/-- `PortalStatus` (`src/shared/schema.ts`). -/
structure PortalStatus where
  is_open : Bool
deriving DecidableEq, Repr

/-- The `MemStorage` state the core operates on (`storage.ts:28-47`): the
recordings map (modelled as a list in insertion order, as JS `Map` iterates)
and the portal-status singleton.  The seeded users map is untouched by every
claim and elided. -/
structure Store where
  recordings : List Recording
  portal : PortalStatus
deriving DecidableEq, Repr

/-- A partial update (`Partial<Recording>`, `storage.ts:100`) restricted to the
three fields the code ever patches; `some v` sets the field to `v`, `none`
leaves it alone. -/
structure RecordingPatch where
  status : Option RecStatus := none
  ai_score : Option (Option ℤ) := none
  ai_result : Option (Option AiResult) := none
deriving DecidableEq, Repr

/-- The spread-merge `{ ...recording, ...updates }` (`storage.ts:106`). -/
def applyPatch (r : Recording) (p : RecordingPatch) : Recording :=
  { r with
    status := p.status.getD r.status
    ai_score := p.ai_score.getD r.ai_score
    ai_result := p.ai_result.getD r.ai_result }

@[simp] theorem applyPatch_id (r : Recording) (p : RecordingPatch) :
    (applyPatch r p).id = r.id := rfl

@[simp] theorem applyPatch_email (r : Recording) (p : RecordingPatch) :
    (applyPatch r p).email = r.email := rfl

/-- `this.recordings.get(id)` (`storage.ts:102`). -/
def findRec (s : Store) (id : String) : Option Recording :=
  s.recordings.find? (fun r => r.id == id)

/-- `MemStorage.createRecording` (`storage.ts:85-96`); the fresh UUID and the
`new Date()` timestamp are inputs. -/
def createRecording (s : Store) (id email audio_url : String) (status : RecStatus)
    (now : ℕ) : Recording × Store :=
  let r : Recording :=
    { id := id, email := email, audio_url := audio_url, status := status,
      ai_score := none, ai_result := none, created_at := now }
  (r, { s with recordings := s.recordings ++ [r] })

/-- `MemStorage.updateRecording` (`storage.ts:98-109`): throws
`"Recording not found"` when the id is absent, otherwise replaces the stored
record by the merged one (`Map.set` keeps the entry's position). -/
def updateRecording (s : Store) (id : String) (p : RecordingPatch) :
    Except String Store :=
  match findRec s id with
  | none => .error "Recording not found"
  | some _ => .ok { s with recordings :=
      (s.recordings.map (fun r => if r.id == id then applyPatch r p else r)) }

/-- `MemStorage.getRecordingsByEmail` (`storage.ts:73-77`). -/
def getRecordingsByEmail (s : Store) (email : String) : List Recording :=
  s.recordings.filter (fun r => r.email == email)

/-- `MemStorage.getAllRecordings` (`storage.ts:79-83`): all recordings sorted
by `created_at` descending. -/
def getAllRecordings (s : Store) : List Recording :=
  List.insertionSort (fun a b => b.created_at ≤ a.created_at) s.recordings

/-- `MemStorage.getPortalStatus` (`storage.ts:111`). -/
def getPortalStatus (s : Store) : PortalStatus := s.portal

/-- `MemStorage.setPortalStatus` (`storage.ts:115`). -/
def setPortalStatus (s : Store) (ps : PortalStatus) : Store :=
  { s with portal := ps }

/-! ## String helpers

JavaScript `String.prototype.toLowerCase` and the regex test
`/evaluation not completed/i.test(detail)` are modelled structurally
(per-character lowercasing, naive substring search) so that they compute
inside the kernel. -/

/-- Model of JS `toLowerCase()` (ASCII-adequate for the statuses compared). -/
def toLowerCase (s : String) : String := ⟨s.data.map Char.toLower⟩

/-- `pat` is a leading segment of `s`. -/
def chStartsWith : List Char → List Char → Bool
  | [], _ => true
  | _ :: _, [] => false
  | a :: as, b :: bs => a == b && chStartsWith as bs

/-- `pat` occurs somewhere inside `s`. -/
def chContains (pat : List Char) : List Char → Bool
  | [] => chStartsWith pat []
  | c :: rest => chStartsWith pat (c :: rest) || chContains pat rest

/-- The not-ready signature test (`routes.ts:154`):
`/evaluation not completed/i.test(detail)`. -/
def notReadySig (detail : String) : Bool :=
  chContains "evaluation not completed".data (toLowerCase detail).data

/-! ## Score extraction (`routes.ts:174-185`) -/

/-- JavaScript `Math.round`: round half toward positive infinity. -/
def jsRound (q : ℚ) : ℤ := ⌊q + 1/2⌋

/-- `Number(r.final_score ?? 0)` (`routes.ts:175`). -/
def itemScore (r : ResultItem) : ℚ := r.final_score.getD 0

/-- The `resultsArray.reduce((max, r) => Math.max(max, Number(r.final_score ??
0)), 0)` aggregation, `null` when the array is empty (`routes.ts:174-175`). -/
def extractRawScore (p : EvalPayload) : Option ℚ :=
  let resultsArray := p.results.getD []
  if resultsArray.isEmpty then none
  else some (resultsArray.foldl (fun mx r => max mx (itemScore r)) 0)

/-- The unit heuristic (`routes.ts:184`): `n <= 1 ? Math.round(n * 100) :
Math.round(n)`. -/
def toPercent (n : ℚ) : ℤ := if n ≤ 1 then jsRound (n * 100) else jsRound n

/-- The full `ai_score_percent` computation (`routes.ts:174-185`). -/
def extractScore (p : EvalPayload) : Option ℤ := (extractRawScore p).map toPercent

/-- `finalStatus` (`routes.ts:176`): `scored` iff the payload's status
lower-cases to `"completed"`, else `closed`. -/
def finalStatusOf (p : EvalPayload) : RecStatus :=
  if toLowerCase p.status = "completed" then .scored else .closed

/-! ## Evaluation client (`sendMp3ToAiAndUpdateRecording`, `routes.ts:63-194`)

The remote scorer is an oracle: one function gives the response to each
upload attempt, another the response to each poll attempt (indexed from 1,
matching the loop counters).  Sleeps (`setTimeout`) have no state effect and
are dropped.  A successful (`resp.ok`) response is modelled as already parsed:
its body is an object carrying an optional `task_id` (upload) or an
`EvalPayload` (poll); the corner case of a successful body whose JSON is a
falsy value is outside the model. -/

/-- Outcome of one upload attempt (`routes.ts:94-112`). -/
inductive UploadResp where
  | thrown (msg : String)
  | httpErr (status : ℕ) (body : String)
  | ok (task_id : Option String)
deriving DecidableEq, Repr

/-- Outcome of one poll attempt (`routes.ts:139-164`): a thrown transport
error, a non-success HTTP response with its status code and extracted
`detail`/`message` string, or a success response parsed into a payload. -/
inductive PollResp where
  | thrown (msg : String)
  | httpErr (status : ℕ) (detail : String)
  | ok (p : EvalPayload)
deriving DecidableEq, Repr

/-- `uploadRetries` (`routes.ts:65`). -/
def uploadRetries : ℕ := 3

/-- `pollMaxAttempts` (`routes.ts:68`). -/
def pollMaxAttempts : ℕ := 120

/-- `statusStr === "completed" || statusStr === "failed"` (`routes.ts:143-144`),
with `statusStr` the lower-cased payload status. -/
def isTerminalPayload (p : EvalPayload) : Bool :=
  toLowerCase p.status == "completed" || toLowerCase p.status == "failed"

/-- The upload retry loop (`routes.ts:92-114`): `fuel` is the remaining
attempts, `attempt` the number already made, the accumulator is
`lastUploadErr`.  Returns `uploadJson`'s `task_id` field (or `none` when all
attempts failed) together with the final `lastUploadErr`. -/
def uploadLoop (env : ℕ → UploadResp) :
    ℕ → ℕ → Option UploadErr → Option (Option String) × Option UploadErr
  | 0, _, lastErr => (none, lastErr)
  | fuel + 1, attempt, lastErr =>
    match env (attempt + 1) with
    | .ok tid => (some tid, lastErr)
    | .httpErr st body => uploadLoop env fuel (attempt + 1) (some (.http st body))
    | .thrown m => uploadLoop env fuel (attempt + 1) (some (.thrown m))

/-- The poll loop (`routes.ts:132-166`): `fuel` is the remaining attempts,
the accumulators are `finalResult` and `lastPollError`.  A success response
always overwrites `finalResult` and ends the loop only when terminal; a 400
response matching the not-ready signature is skipped; any other failure
replaces `lastPollError`. -/
def pollLoop (env : ℕ → PollResp) :
    ℕ → ℕ → Option EvalPayload → Option PollErr →
    Option EvalPayload × Option PollErr
  | 0, _, fr, lpe => (fr, lpe)
  | fuel + 1, attempt, fr, lpe =>
    match env (attempt + 1) with
    | .ok p =>
        if isTerminalPayload p then (some p, lpe)
        else pollLoop env fuel (attempt + 1) (some p) lpe
    | .httpErr st d =>
        if st == 400 && notReadySig d then pollLoop env fuel (attempt + 1) fr lpe
        else pollLoop env fuel (attempt + 1) fr (some (.http st d))
    | .thrown m => pollLoop env fuel (attempt + 1) fr (some (.thrown m))

/-- `AI_BASE` (`routes.ts:15`): `process.env.AI_BASE || "http://…"` — the
`||` fallback makes it always non-empty. -/
def AI_BASE : String := "http://16.170.164.187"

/-- Update writing `status: "closed", ai_score: null, ai_result: d`. -/
def closedPatch (d : AiResult) : RecordingPatch :=
  { status := some .closed, ai_score := some none, ai_result := some (some d) }

/-- The `{ status: "under_review" }` update (`routes.ts:130`). -/
def underReviewPatch : RecordingPatch := { status := some .under_review }

/-- The terminal update (`routes.ts:187`): final status from the payload's
status, extracted percent score, raw payload as `ai_result`. -/
def finalPayloadPatch (p : EvalPayload) : RecordingPatch :=
  { status := some (finalStatusOf p), ai_score := some (extractScore p),
    ai_result := some (some (.payload p)) }

/-- The sequence of `storage.updateRecording` calls performed by
`sendMp3ToAiAndUpdateRecording` (`routes.ts:63-194`), in order.  The
`simulateIfNoAi` sub-branch (`routes.ts:72-79`) is behind the constant-`false`
flag of `routes.ts:64` and the always-non-empty `AI_BASE`, hence elided past
the (equally dead) `AI_BASE` guard. -/
def sendMp3Updates (uEnv : ℕ → UploadResp) (pEnv : ℕ → PollResp) :
    List RecordingPatch :=
  if AI_BASE = "" then [closedPatch .aiBaseMissing]
  else
    match uploadLoop uEnv uploadRetries 0 none with
    | (none, lastUploadErr) => [closedPatch (.uploadFailed lastUploadErr)]
    | (some tid?, _) =>
      match tid? with
      | none => [closedPatch .noTaskId]
      | some _ =>
        match pollLoop pEnv pollMaxAttempts 0 none none with
        | (none, lastPollError) =>
            [underReviewPatch, closedPatch (.pollTimeout lastPollError)]
        | (some p, _) => [underReviewPatch, finalPayloadPatch p]

/-- Apply a sequence of updates, all addressed to the same recording id,
through `updateRecording`; the first thrown error aborts. -/
def applyUpdates (s : Store) (id : String) : List RecordingPatch → Except String Store
  | [] => .ok s
  | p :: ps =>
    match updateRecording s id p with
    | .error e => .error e
    | .ok s' => applyUpdates s' id ps

/-- `sendMp3ToAiAndUpdateRecording` as a store transformer: perform the
update sequence; on a thrown error the catch handler (`routes.ts:190-193`)
attempts one final `closed` update (which throws again when the id is the
reason the body threw). -/
def sendMp3ToAiAndUpdateRecording (uEnv : ℕ → UploadResp) (pEnv : ℕ → PollResp)
    (s : Store) (recordingId : String) : Except String Store :=
  match applyUpdates s recordingId (sendMp3Updates uEnv pEnv) with
  | .ok s' => .ok s'
  | .error e => updateRecording s recordingId (closedPatch (.uncaught e))

/-! ## Portal controller (`routes.ts:290-351`) -/

/-- Apply a list of keyed updates through `updateRecording`, first failure
aborting (the code `await`s each / `Promise.all`s them; every target id is
drawn from the store, so none fails in the modelled runs). -/
def applyKeyedUpdates (s : Store) : List (String × RecordingPatch) → Except String Store
  | [] => .ok s
  | u :: us =>
    match updateRecording s u.1 u.2 with
    | .error e => .error e
    | .ok s' => applyKeyedUpdates s' us

/-- `Math.floor(Math.random() * 101)` (`routes.ts:295`) applied to one random
draw `q ∈ [0,1)`. -/
def fallbackScore (q : ℚ) : ℤ := ⌊q * 101⌋

/-- The `{ ai_score: s, status: "scored" }` update of `routes.ts:296`. -/
def scoredPatch (k : ℤ) : RecordingPatch :=
  { status := some .scored, ai_score := some (some k) }

/-- The per-recording updates built by `close_audition`'s `.map`
(`routes.ts:294-297`): one fallback-scoring update per filtered recording,
each consuming the next random draw. -/
def scoredUpdates (draws : ℕ → ℚ) : ℕ → List Recording → List (String × RecordingPatch)
  | _, [] => []
  | i, r :: rs => (r.id, scoredPatch (fallbackScore (draws i))) :: scoredUpdates draws (i + 1) rs

/-- `POST /api/close_audition` (`routes.ts:290-304`): close the portal, then
fallback-score every recording whose `ai_score` is null.  `draws` is the
`Math.random()` oracle, one draw per scored recording. -/
def closePortal (draws : ℕ → ℚ) (s : Store) : Except String Store :=
  let s1 := setPortalStatus s { is_open := false }
  let toScore := (getAllRecordings s1).filter (fun r => r.ai_score.isNone)
  applyKeyedUpdates s1 (scoredUpdates draws 0 toScore)

/-- The soft-restart reset update (`routes.ts:320`):
`{ status: "pending", ai_score: null, ai_result: null }`. -/
def pendingPatch : RecordingPatch :=
  { status := some .pending, ai_score := some none, ai_result := some none }

/-- `POST /api/restart_audition` with `mode: "soft"` (`routes.ts:315-323`):
reopen the portal and reset every recording to pending. -/
def restartSoft (s : Store) : Except String Store :=
  let s1 := setPortalStatus s { is_open := true }
  applyKeyedUpdates s1 ((getAllRecordings s1).map (fun r => (r.id, pendingPatch)))

/-- Modelled from the spec: `storage.clearAllRecordings()` is called by the
hard-restart branch (`routes.ts:344`) but has no definition under `src/`
(`MemStorage` in `src/server/storage.ts` lacks it); spec §4.5: hard restart
"deletes every Recording …, yielding an empty roster". -/
def clearAllRecordings (s : Store) : Store := { s with recordings := [] }

/-- `POST /api/restart_audition` with `mode: "hard"` (`routes.ts:324-346`):
reopen the portal, delete the uploaded files (no store effect; the filesystem
is outside the model) and clear all recordings. -/
def restartHard (s : Store) : Store :=
  clearAllRecordings (setPortalStatus s { is_open := true })

/-! ## Submission (`POST /api/recordings`, `routes.ts:225-263`) -/

/-- Result of the audio-conversion step (`convertToMp3`, an external
collaborator): success, or the conversion error message. -/
inductive ConvOutcome where
  | ok
  | failed (msg : String)
deriving DecidableEq, Repr

/-- The response category `POST /api/recordings` returns. -/
inductive SubmitOutcome where
  | badRequest
  | portalClosed
  | duplicate
  | conversionFailed (msg : String)
  | accepted (id : String)
deriving DecidableEq, Repr

/-- `path.parse(savedFilename).name` for the saved upload's basename
(the multer filename `"<millis>-<uuid><ext>"` contains at most one dot). -/
def stripExt (s : String) : String :=
  match s.splitOn "." with
  | [] => s
  | [_] => s
  | parts => if parts.headD "" = "" then s else String.intercalate "." parts.dropLast

/-- The `POST /api/recordings` handler (`routes.ts:225-263`) as a store
transformer.  Inputs that the environment supplies: the submitted `email` and
the saved upload's filename, the conversion outcome, the fresh UUID and the
creation timestamp.  The background evaluation is detached by `setImmediate`
(`routes.ts:256`) — it is not part of the submission's own store effect. -/
def submit (s : Store) (email savedFilename : String) (conv : ConvOutcome)
    (newId : String) (now : ℕ) : SubmitOutcome × Store :=
  if email = "" then (.badRequest, s)
  else if !(getPortalStatus s).is_open then (.portalClosed, s)
  else if !(getRecordingsByEmail s email).isEmpty then (.duplicate, s)
  else
    match conv with
    | .failed msg =>
      let rs := createRecording s newId email ("/uploads/" ++ savedFilename) .closed now
      match updateRecording rs.2 rs.1.id
          { ai_score := some none, ai_result := some (some (.convFailed msg)) } with
      | .ok s2 => (.conversionFailed msg, s2)
      | .error _ => (.conversionFailed msg, rs.2)
    | .ok =>
      let mp3Url := "/uploads/" ++ stripExt savedFilename ++ ".mp3"
      let rs := createRecording s newId email mp3Url .pending now
      (.accepted rs.1.id, rs.2)

/-! ## Spec-side definitions

These follow the specification's words, for comparison with the definitions
embedded from the source. -/

/-- Spec §4.3: the per-item raw sub-scores of a payload. -/
def payloadSubScores (p : EvalPayload) : List ℚ :=
  (p.results.getD []).map itemScore

/-- Spec §4.3 wording: "the maximum raw sub-score across all items"; absent
items yield nothing. -/
def specMaxRaw : List ℚ → Option ℚ
  | [] => none
  | q :: qs => some (qs.foldl max q)

/-- Claim C5's formula, following the spec's words: the maximum of the raw
sub-scores, put through the unit heuristic; zero items yield null. -/
def specExtract (subs : List ℚ) : Option ℤ := (specMaxRaw subs).map toPercent

/-- Claim C5 amended: the same formula with the maximum additionally clamped
below at 0 (the seed of the source's `reduce`, `routes.ts:175`). -/
def specExtractClamped (subs : List ℚ) : Option ℤ :=
  (specMaxRaw subs).map (fun m => toPercent (max 0 m))

/-- Which poll responses the loop records into `lastPollError`
(`routes.ts:150-164`): everything except a success response and except a 400
response matching the not-ready signature. -/
def pollErrOf : PollResp → Option PollErr
  | .ok _ => none
  | .httpErr st d => if st == 400 && notReadySig d then none else some (.http st d)
  | .thrown m => some (.thrown m)

/-- Spec §4.2 wording: "the last-seen poll error" over attempts `1..n` —
the recorded error of the latest attempt that produced one. -/
def lastPollErrThrough (env : ℕ → PollResp) : ℕ → Option PollErr
  | 0 => none
  | n + 1 =>
    match pollErrOf (env (n + 1)) with
    | some e => some e
    | none => lastPollErrThrough env n

/-! ## Helper lemmas: rounding and fold-max bounds -/

theorem jsRound_eq (q : ℚ) (k : ℤ) (h1 : (k : ℚ) ≤ q + 1/2)
    (h2 : q + 1/2 < (k : ℚ) + 1) : jsRound q = k := by
  unfold jsRound
  rw [Int.floor_eq_iff]
  exact ⟨h1, by exact_mod_cast h2⟩

theorem le_foldl_maxItem (l : List ResultItem) (b : ℚ) :
    b ≤ l.foldl (fun mx r => max mx (itemScore r)) b := by
  induction l generalizing b with
  | nil => simp
  | cons a l ih => exact le_trans (le_max_left _ _) (ih _)

theorem foldl_maxItem_le (l : List ResultItem) (b c : ℚ) (hb : b ≤ c)
    (h : ∀ r ∈ l, itemScore r ≤ c) :
    l.foldl (fun mx r => max mx (itemScore r)) b ≤ c := by
  induction l generalizing b with
  | nil => simpa using hb
  | cons a l ih =>
    simp only [List.foldl]
    exact ih _ (max_le hb (h a (by simp))) (fun r hr => h r (by simp [hr]))

theorem foldl_max_shift (l : List ℚ) (a b : ℚ) :
    List.foldl max (max a b) l = max a (List.foldl max b l) := by
  induction l generalizing b with
  | nil => rfl
  | cons c l ih => simp only [List.foldl]; rw [max_assoc, ih]

/-- The source's aggregation equals the clamped spec-side maximum. -/
theorem extractRawScore_eq_clamped (p : EvalPayload) :
    extractRawScore p = (specMaxRaw (payloadSubScores p)).map (fun m => max 0 m) := by
  unfold extractRawScore payloadSubScores specMaxRaw
  cases hres : p.results.getD [] with
  | nil => simp
  | cons a l =>
    simp only [List.isEmpty_cons, List.map_cons, if_neg]
    have hfold : ∀ (l' : List ResultItem) (b : ℚ),
        l'.foldl (fun mx r => max mx (itemScore r)) b =
          List.foldl max b (l'.map itemScore) := by
      intro l'
      induction l' with
      | nil => intro b; rfl
      | cons x xs ih => intro b; simp only [List.foldl, List.map_cons]; exact ih _
    rw [hfold]
    simp only [List.map_cons, List.foldl_cons, Option.map_some']
    rw [show (max 0 (itemScore a) : ℚ) = max 0 (itemScore a) from rfl, foldl_max_shift]
    simp

/-- `extractScore` is `none` exactly on an absent or empty `results` array. -/
theorem extractScore_eq_none_iff (p : EvalPayload) :
    extractScore p = none ↔ p.results.getD [] = [] := by
  unfold extractScore extractRawScore
  cases hres : p.results.getD [] <;> simp

theorem jsRound_ofInt (k : ℤ) : jsRound (k : ℚ) = k :=
  jsRound_eq _ _ (by norm_num) (by norm_num)

/-! ## Concrete payloads used by counterexamples and examples -/

/-- A payload whose single raw sub-score is 500. -/
def payload500 : EvalPayload := { status := "completed", results := some [⟨some 500⟩] }

/-- A payload whose single raw sub-score is negative. -/
def payloadNegItem : EvalPayload := { status := "completed", results := some [⟨some (-1)⟩] }

/-- The spec's example payload with sub-scores `[0.2, 0.95, 0.6]`. -/
def examplePayloadA : EvalPayload :=
  { status := "completed", results := some [⟨some 0.2⟩, ⟨some 0.95⟩, ⟨some 0.6⟩] }

/-- The spec's example payload with sub-scores `[40, 82]`. -/
def examplePayloadB : EvalPayload :=
  { status := "completed", results := some [⟨some 40⟩, ⟨some 82⟩] }

/-- The spec's example payload with no sub-scores. -/
def examplePayloadC : EvalPayload := { status := "completed", results := some [] }

theorem jsRound_num (q : ℚ) (k : ℤ) (h : q = (k:ℚ)) : jsRound q = k :=
  h ▸ jsRound_ofInt k

theorem toPercent_nonneg (m : ℚ) (h : 0 ≤ m) : 0 ≤ toPercent m := by
  unfold toPercent jsRound
  split
  · exact Int.le_floor.mpr (by push_cast; linarith)
  · exact Int.le_floor.mpr (by push_cast; linarith)

theorem toPercent_le_100 (m : ℚ) (h : m ≤ 100) : toPercent m ≤ 100 := by
  have h101 : ∀ q : ℚ, q < 101 → ⌊q⌋ ≤ 100 := by
    intro q hq
    have := Int.floor_lt.mpr (show q < ((101:ℤ):ℚ) by exact_mod_cast hq)
    omega
  unfold toPercent jsRound
  split
  · next hle => exact h101 _ (by linarith)
  · exact h101 _ (by linarith)

theorem extractScore_payload500 : extractScore payload500 = some 500 := by
  have hraw : extractRawScore payload500 = some 500 := by
    simp only [extractRawScore, payload500, Option.getD_some, List.isEmpty_cons,
      Bool.false_eq_true, if_false, List.foldl_cons, List.foldl_nil, itemScore]
    rw [max_eq_right (by norm_num : (0:ℚ) ≤ 500)]
  rw [extractScore, hraw, Option.map_some']
  rw [toPercent, if_neg (by norm_num : ¬((500:ℚ) ≤ 1)), jsRound_num _ 500 (by norm_num)]

theorem extractScore_examplePayloadA : extractScore examplePayloadA = some 95 := by
  have hmax : List.foldl (fun mx r => max mx (itemScore r)) 0
      [(⟨some 0.2⟩ : ResultItem), ⟨some 0.95⟩, ⟨some 0.6⟩] = 0.95 := by
    simp [itemScore, max_def]
    norm_num
  have h95 : jsRound ((0.95:ℚ) * 100) = 95 := by
    rw [show ((0.95:ℚ) * 100) = ((95:ℤ) : ℚ) by norm_num]
    exact jsRound_ofInt 95
  simp [extractScore, extractRawScore, examplePayloadA, hmax, toPercent,
    (by norm_num : ((0.95:ℚ) ≤ 1)), h95]

theorem extractScore_examplePayloadB : extractScore examplePayloadB = some 82 := by
  have hmax : List.foldl (fun mx r => max mx (itemScore r)) 0
      [(⟨some 40⟩ : ResultItem), ⟨some 82⟩] = 82 := by
    simp [itemScore, max_def]
    norm_num
  have h82 : jsRound ((82:ℚ)) = 82 := by
    rw [show ((82:ℚ)) = ((82:ℤ) : ℚ) by norm_num]
    exact jsRound_ofInt 82
  simp [extractScore, extractRawScore, examplePayloadB, hmax, toPercent,
    (by norm_num : ¬((82:ℚ) ≤ 1)), h82]

/-- Claim C4, as stated, fails at `payload500`: the extraction step produces
500, outside `[0,100]`. -/
theorem claim_C4_cex :
    extractScore payload500 = some 500 ∧ ¬((500:ℤ) ≤ 100) :=
  ⟨extractScore_payload500, by norm_num⟩

/-- Claim C4 amended: for *every* payload the extracted score is null or a
nonnegative integer (the `reduce` is seeded with 0), and it additionally lies
in `[0,100]` whenever every raw sub-score is at most 100. -/
theorem claim_C4 (p : EvalPayload) :
    (extractScore p = none ∨ ∃ k : ℤ, extractScore p = some k ∧ 0 ≤ k) ∧
    ((∀ it ∈ p.results.getD [], itemScore it ≤ 100) →
      extractScore p = none ∨
        ∃ k : ℤ, extractScore p = some k ∧ 0 ≤ k ∧ k ≤ 100) := by
  cases hres : p.results.getD [] with
  | nil =>
    have hn : extractScore p = none := (extractScore_eq_none_iff p).mpr hres
    exact ⟨Or.inl hn, fun _ => Or.inl hn⟩
  | cons a l =>
    have heq : extractScore p =
        some (toPercent ((a :: l).foldl (fun mx r => max mx (itemScore r)) 0)) := by
      simp [extractScore, extractRawScore, hres]
    have h0 : 0 ≤ toPercent ((a :: l).foldl (fun mx r => max mx (itemScore r)) 0) :=
      toPercent_nonneg _ (le_foldl_maxItem _ _)
    refine ⟨Or.inr ⟨_, heq, h0⟩, fun h => Or.inr ⟨_, heq, h0, ?_⟩⟩
    refine toPercent_le_100 _ (foldl_maxItem_le _ _ _ (by norm_num) ?_)
    intro r hr
    exact h r (hres ▸ hr)

/-- Witness for `claim_C4`: the unconditional clause at `payload500` (whose
sub-score exceeds 100), and the conditional `[0,100]` clause at
`examplePayloadB` with its sub-score hypothesis discharged. -/
theorem claim_C4_witness :
    (extractScore payload500 = none ∨
      ∃ k : ℤ, extractScore payload500 = some k ∧ 0 ≤ k) ∧
    (extractScore examplePayloadB = none ∨
      ∃ k : ℤ, extractScore examplePayloadB = some k ∧ 0 ≤ k ∧ k ≤ 100) :=
  ⟨(claim_C4 payload500).1,
    (claim_C4 examplePayloadB).2 (by
      intro it hit
      simp only [examplePayloadB, Option.getD_some, List.mem_cons,
        List.not_mem_nil, or_false] at hit
      rcases hit with h | h <;> (subst h; simp [itemScore]; norm_num))⟩

/-- Claim C5, as stated, fails at `payloadNegItem`: the source seeds its
`reduce` with 0, so the code yields 0 where the claimed formula (maximum of
the raw sub-scores put through the unit heuristic) yields -100. -/
theorem claim_C5_cex :
    extractScore payloadNegItem ≠ specExtract (payloadSubScores payloadNegItem) := by
  have hL : extractScore payloadNegItem = some 0 := by
    have hraw : extractRawScore payloadNegItem = some 0 := by
      simp only [extractRawScore, payloadNegItem, Option.getD_some, List.isEmpty_cons,
        Bool.false_eq_true, if_false, List.foldl_cons, List.foldl_nil, itemScore]
      rw [max_eq_left (by norm_num : (-1:ℚ) ≤ 0)]
    rw [extractScore, hraw, Option.map_some']
    rw [toPercent, if_pos (by norm_num : ((0:ℚ) ≤ 1)), jsRound_num _ 0 (by norm_num)]
  have hR : specExtract (payloadSubScores payloadNegItem) = some (-100) := by
    show (specMaxRaw [(-1:ℚ)]).map toPercent = some (-100)
    simp only [specMaxRaw, List.foldl_nil, Option.map_some']
    rw [toPercent, if_pos (by norm_num : ((-1:ℚ) ≤ 1)), jsRound_num _ (-100) (by norm_num)]
  rw [hL, hR]
  simp

/-! ## Helper lemmas: store updates addressed to one recording -/

theorem find?_map_update (l : List Recording) (id : String) (pc : RecordingPatch)
    (r : Recording) (h : l.find? (fun x => x.id == id) = some r) :
    (l.map (fun x => if x.id == id then applyPatch x pc else x)).find?
      (fun x => x.id == id) = some (applyPatch r pc) := by
  induction l with
  | nil => simp at h
  | cons x xs ih =>
    by_cases hx : (x.id == id) = true
    · rw [@List.find?_cons_of_pos _ (fun y : Recording => y.id == id) x xs hx] at h
      injection h with h
      subst h
      simp only [List.map_cons, if_pos hx]
      exact @List.find?_cons_of_pos _ (fun y : Recording => y.id == id) _ _ (by simpa using hx)
    · rw [@List.find?_cons_of_neg _ (fun y : Recording => y.id == id) x xs hx] at h
      simp only [List.map_cons, if_neg hx]
      rw [@List.find?_cons_of_neg _ (fun y : Recording => y.id == id) x _ hx]
      exact ih h

theorem updateRecording_found (s : Store) (id : String) (pc : RecordingPatch)
    (r : Recording) (h : findRec s id = some r) :
    ∃ s', updateRecording s id pc = .ok s' ∧ findRec s' id = some (applyPatch r pc) := by
  refine ⟨{ s with recordings :=
    (s.recordings.map (fun x => if x.id == id then applyPatch x pc else x)) }, ?_, ?_⟩
  · unfold updateRecording
    rw [h]
  · exact find?_map_update _ _ _ _ h

theorem applyUpdates_found (ps : List RecordingPatch) (s : Store) (id : String)
    (r : Recording) (h : findRec s id = some r) :
    ∃ s', applyUpdates s id ps = .ok s' ∧
      findRec s' id = some (ps.foldl applyPatch r) := by
  induction ps generalizing s r with
  | nil => exact ⟨s, rfl, by simpa using h⟩
  | cons p ps ih =>
    obtain ⟨s1, hs1, hf1⟩ := updateRecording_found s id p r h
    obtain ⟨s', hs', hf'⟩ := ih s1 (applyPatch r p) hf1
    exact ⟨s', by rw [applyUpdates, hs1]; exact hs', hf'⟩

theorem sendMp3_found (uEnv : ℕ → UploadResp) (pEnv : ℕ → PollResp)
    (s : Store) (id : String) (r : Recording) (h : findRec s id = some r) :
    ∃ s', sendMp3ToAiAndUpdateRecording uEnv pEnv s id = .ok s' ∧
      findRec s' id = some ((sendMp3Updates uEnv pEnv).foldl applyPatch r) := by
  obtain ⟨s', hs', hf'⟩ := applyUpdates_found (sendMp3Updates uEnv pEnv) s id r h
  exact ⟨s', by rw [sendMp3ToAiAndUpdateRecording, hs'], hf'⟩

/-! ## Helper lemmas: the upload and poll loops -/

theorem uploadLoop_ok_first (uEnv : ℕ → UploadResp) (a : ℕ) (le : Option UploadErr)
    (t : Option String) (h : uEnv (a + 1) = .ok t) (fuel : ℕ) (hf : fuel ≠ 0) :
    uploadLoop uEnv fuel a le = (some t, le) := by
  cases fuel with
  | zero => exact absurd rfl hf
  | succ n => simp [uploadLoop, h]

theorem uploadLoop_no_ok (uEnv : ℕ → UploadResp) :
    ∀ (fuel a : ℕ) (le : Option UploadErr),
      (∀ n, a < n → n ≤ a + fuel → ∀ t, uEnv n ≠ .ok t) →
      (uploadLoop uEnv fuel a le).1 = none := by
  intro fuel
  induction fuel with
  | zero => intro a le _; rfl
  | succ m ih =>
    intro a le h
    cases henv : uEnv (a + 1) with
    | ok t => exact absurd henv (h (a + 1) (by omega) (by omega) t)
    | httpErr st body =>
      rw [uploadLoop, henv]
      exact ih (a + 1) _ (fun n h1 h2 t => h n (by omega) (by omega) t)
    | thrown m' =>
      rw [uploadLoop, henv]
      exact ih (a + 1) _ (fun n h1 h2 t => h n (by omega) (by omega) t)

theorem pollLoop_ok_first (pEnv : ℕ → PollResp) (a : ℕ) (fr : Option EvalPayload)
    (le : Option PollErr) (p : EvalPayload) (h : pEnv (a + 1) = .ok p)
    (hterm : isTerminalPayload p = true) (fuel : ℕ) (hf : fuel ≠ 0) :
    pollLoop pEnv fuel a fr le = (some p, le) := by
  cases fuel with
  | zero => exact absurd rfl hf
  | succ n => simp [pollLoop, h, hterm]

theorem pollLoop_const_nonterminal (pEnv : ℕ → PollResp) (p : EvalPayload)
    (hc : ∀ n, pEnv n = .ok p) (hterm : isTerminalPayload p = false) :
    ∀ (fuel : ℕ), fuel ≠ 0 → ∀ (a : ℕ) (fr : Option EvalPayload) (le : Option PollErr),
      pollLoop pEnv fuel a fr le = (some p, le) := by
  intro fuel
  induction fuel with
  | zero => intro h; exact absurd rfl h
  | succ m ih =>
    intro _ a fr le
    rw [pollLoop, hc (a + 1)]
    simp only [hterm, Bool.false_eq_true, if_false]
    cases m with
    | zero => rfl
    | succ k => exact ih (by omega) _ _ _

/-- The forward accumulator the poll loop keeps in `lastPollError`, over
attempts `a+1 .. a+fuel` starting from `le`. -/
def fwdLastErr (pEnv : ℕ → PollResp) : ℕ → ℕ → Option PollErr → Option PollErr
  | 0, _, le => le
  | fuel + 1, a, le =>
    fwdLastErr pEnv fuel (a + 1)
      (match pollErrOf (pEnv (a + 1)) with
       | some e => some e
       | none => le)

theorem fwdLastErr_snoc (pEnv : ℕ → PollResp) :
    ∀ (fuel a : ℕ) (le : Option PollErr),
      fwdLastErr pEnv (fuel + 1) a le =
        match pollErrOf (pEnv (a + fuel + 1)) with
        | some e => some e
        | none => fwdLastErr pEnv fuel a le := by
  intro fuel
  induction fuel with
  | zero => intro a le; rfl
  | succ m ih =>
    intro a le
    show fwdLastErr pEnv (m + 1) (a + 1) _ = _
    rw [ih (a + 1)]
    rw [show a + 1 + m + 1 = a + (m + 1) + 1 by omega]
    rfl

theorem fwdLastErr_eq_lastPollErrThrough (pEnv : ℕ → PollResp) :
    ∀ n : ℕ, fwdLastErr pEnv n 0 none = lastPollErrThrough pEnv n := by
  intro n
  induction n with
  | zero => rfl
  | succ m ih =>
    rw [fwdLastErr_snoc, show 0 + m + 1 = m + 1 by omega, lastPollErrThrough]
    cases pollErrOf (pEnv (m + 1)) <;> simp [ih]

theorem pollLoop_no_ok (pEnv : ℕ → PollResp) :
    ∀ (fuel a : ℕ) (le : Option PollErr),
      (∀ n, a < n → n ≤ a + fuel → ∀ q, pEnv n ≠ .ok q) →
      pollLoop pEnv fuel a none le = (none, fwdLastErr pEnv fuel a le) := by
  intro fuel
  induction fuel with
  | zero => intro a le _; rfl
  | succ m ih =>
    intro a le h
    have hrest : ∀ n, a + 1 < n → n ≤ a + 1 + m → ∀ q, pEnv n ≠ .ok q :=
      fun n h1 h2 q => h n (by omega) (by omega) q
    cases henv : pEnv (a + 1) with
    | ok q => exact absurd henv (h (a + 1) (by omega) (by omega) q)
    | httpErr st d =>
      cases hsig : (st == 400 && notReadySig d) with
      | true =>
        have hperr : pollErrOf (pEnv (a + 1)) = none := by
          rw [henv]; simp [pollErrOf, hsig]
        have hL : pollLoop pEnv (m + 1) a none le = pollLoop pEnv m (a + 1) none le := by
          rw [pollLoop, henv]; simp [hsig]
        have hR : fwdLastErr pEnv (m + 1) a le = fwdLastErr pEnv m (a + 1) le := by
          rw [fwdLastErr, hperr]
        rw [hL, hR]
        exact ih (a + 1) le hrest
      | false =>
        have hperr : pollErrOf (pEnv (a + 1)) = some (.http st d) := by
          rw [henv]; simp [pollErrOf, hsig]
        have hL : pollLoop pEnv (m + 1) a none le
            = pollLoop pEnv m (a + 1) none (some (.http st d)) := by
          rw [pollLoop, henv]; simp [hsig]
        have hR : fwdLastErr pEnv (m + 1) a le
            = fwdLastErr pEnv m (a + 1) (some (.http st d)) := by
          rw [fwdLastErr, hperr]
        rw [hL, hR]
        exact ih (a + 1) _ hrest
    | thrown msg =>
      have hperr : pollErrOf (pEnv (a + 1)) = some (.thrown msg) := by
        rw [henv]; simp [pollErrOf]
      have hL : pollLoop pEnv (m + 1) a none le
          = pollLoop pEnv m (a + 1) none (some (.thrown msg)) := by
        rw [pollLoop, henv]
      have hR : fwdLastErr pEnv (m + 1) a le
          = fwdLastErr pEnv m (a + 1) (some (.thrown msg)) := by
        rw [fwdLastErr, hperr]
      rw [hL, hR]
      exact ih (a + 1) _ hrest

/-- Claim C5 amended: the extracted score equals the maximum of the raw
sub-scores *and zero* put through the unit heuristic (the source's `reduce`
seeds the maximum with 0), with absent items yielding null; the spec's three
examples hold as stated. -/
theorem claim_C5 :
    (∀ p : EvalPayload, extractScore p = specExtractClamped (payloadSubScores p)) ∧
    extractScore examplePayloadA = some 95 ∧
    extractScore examplePayloadB = some 82 ∧
    extractScore examplePayloadC = none := by
  refine ⟨?_, extractScore_examplePayloadA, extractScore_examplePayloadB, ?_⟩
  · intro p
    unfold extractScore specExtractClamped
    rw [extractRawScore_eq_clamped, Option.map_map]
    rfl
  · rw [extractScore_eq_none_iff]
    rfl

/-! ## Concrete fixtures for evaluation-pipeline runs -/

/-- A pending recording as `createRecording` stores it. -/
def rec1 : Recording :=
  { id := "r1", email := "a@example.com", audio_url := "/uploads/x.mp3",
    status := .pending, ai_score := none, ai_result := none, created_at := 0 }

/-- A store holding `rec1`, portal open. -/
def store1 : Store := { recordings := [rec1], portal := { is_open := true } }

/-- An upload oracle that accepts at once and returns a task id. -/
def uEnvOkT : ℕ → UploadResp := fun _ => .ok (some "task-1")

/-- An upload oracle where every attempt throws a transport error. -/
def uEnvDown : ℕ → UploadResp := fun _ => .thrown "ECONNREFUSED"

/-- A poll oracle where every attempt throws a transport error. -/
def pEnvDown : ℕ → PollResp := fun _ => .thrown "ECONNREFUSED"

/-- A terminal `"failed"` payload that still carries one result item. -/
def cexFailedPayload : EvalPayload :=
  { status := "failed", results := some [⟨some (1/2)⟩] }

/-- A poll oracle delivering `cexFailedPayload` at once. -/
def pEnvFailedHalf : ℕ → PollResp := fun _ => .ok cexFailedPayload

/-- A never-terminal in-progress payload. -/
def processingPayload : EvalPayload := { status := "processing", results := none }

/-- A poll oracle that reports in-progress forever. -/
def pEnvProcessing : ℕ → PollResp := fun _ => .ok processingPayload

/-- `rec1` after the `under_review` update. -/
def rec1UR : Recording :=
  ⟨"r1", "a@example.com", "/uploads/x.mp3", .under_review, none, none, 0⟩

/-- `rec1` after the terminal update for `cexFailedPayload`: closed, yet with
a non-null score. -/
def rec1FailedScored : Recording :=
  ⟨"r1", "a@example.com", "/uploads/x.mp3", .closed, some 50,
    some (.payload cexFailedPayload), 0⟩

/-- `rec1` after the terminal update for `processingPayload`. -/
def rec1ProcClosed : Recording :=
  ⟨"r1", "a@example.com", "/uploads/x.mp3", .closed, none,
    some (.payload processingPayload), 0⟩

theorem extractScore_cexFailedPayload : extractScore cexFailedPayload = some 50 := by
  have hraw : extractRawScore cexFailedPayload = some (1/2 : ℚ) := by
    simp only [extractRawScore, cexFailedPayload, Option.getD_some, List.isEmpty_cons,
      Bool.false_eq_true, if_false, List.foldl_cons, List.foldl_nil, itemScore]
    rw [max_eq_right (by norm_num : (0:ℚ) ≤ 1/2)]
  rw [extractScore, hraw, Option.map_some']
  rw [toPercent, if_pos (by norm_num : ((1/2:ℚ) ≤ 1)), jsRound_num _ 50 (by norm_num)]

/-! ## Claim C1 -/

/-- Claim C1, as stated, fails: a terminal `"failed"` payload carrying a
result item ends the run with `status=closed` but a *non-null* stored score
(the terminal update `routes.ts:187` writes the extracted score regardless of
the final status). -/
theorem claim_C1_cex :
    sendMp3ToAiAndUpdateRecording uEnvOkT pEnvFailedHalf store1 "r1" =
      .ok ⟨[rec1FailedScored], ⟨true⟩⟩ ∧
    some (50:ℤ) ≠ (none : Option ℤ) := by
  refine ⟨?_, by simp⟩
  have hterm : isTerminalPayload cexFailedPayload = true := by decide
  have hpoll : pollLoop pEnvFailedHalf pollMaxAttempts 0 none none =
      (some cexFailedPayload, none) :=
    pollLoop_ok_first pEnvFailedHalf 0 none none cexFailedPayload rfl hterm
      pollMaxAttempts (by decide)
  have hupd : sendMp3Updates uEnvOkT pEnvFailedHalf =
      [underReviewPatch, finalPayloadPatch cexFailedPayload] := by
    unfold sendMp3Updates
    rw [if_neg (by decide : ¬(AI_BASE = ""))]
    rw [show uploadLoop uEnvOkT uploadRetries 0 none
      = (some (some "task-1"), none) from rfl]
    show (match pollLoop pEnvFailedHalf pollMaxAttempts 0 none none with
      | (none, lastPollError) => [underReviewPatch, closedPatch (.pollTimeout lastPollError)]
      | (some p, _) => [underReviewPatch, finalPayloadPatch p]) = _
    rw [hpoll]
  have hstatus : finalStatusOf cexFailedPayload = .closed := by decide
  have hpatch : applyPatch rec1UR (finalPayloadPatch cexFailedPayload) = rec1FailedScored := by
    show (⟨"r1", "a@example.com", "/uploads/x.mp3", finalStatusOf cexFailedPayload,
      extractScore cexFailedPayload, some (.payload cexFailedPayload), 0⟩ : Recording) = _
    rw [hstatus, extractScore_cexFailedPayload]
    rfl
  unfold sendMp3ToAiAndUpdateRecording
  rw [hupd]
  have happ : applyUpdates store1 "r1"
      [underReviewPatch, finalPayloadPatch cexFailedPayload] =
      .ok ⟨[rec1FailedScored], ⟨true⟩⟩ := by
    show applyUpdates ⟨[rec1UR], ⟨true⟩⟩ "r1" [finalPayloadPatch cexFailedPayload] = _
    show Except.ok (⟨[applyPatch rec1UR (finalPayloadPatch cexFailedPayload)], ⟨true⟩⟩ : Store) = _
    rw [hpatch]
  rw [happ]

/-- Claim C1 amended: on a terminal `"failed"` remote status the Recording is
updated to `status=closed` with the raw payload kept as `result`, and the
*extracted score* is stored — null exactly when the payload carries no result
items, so `score` can be non-null while `status=closed`. -/
theorem claim_C1 (uEnv : ℕ → UploadResp) (pEnv : ℕ → PollResp) (s : Store)
    (rid : String) (r : Recording) (tid : String) (ue : Option UploadErr)
    (p : EvalPayload)
    (hu : uploadLoop uEnv uploadRetries 0 none = (some (some tid), ue))
    (hp : pEnv 1 = .ok p)
    (hfail : toLowerCase p.status = "failed")
    (hrec : findRec s rid = some r) :
    ∃ s', sendMp3ToAiAndUpdateRecording uEnv pEnv s rid = .ok s' ∧
      ∃ r', findRec s' rid = some r' ∧
        r'.status = .closed ∧
        r'.ai_result = some (.payload p) ∧
        r'.ai_score = extractScore p ∧
        (r'.ai_score = none ↔ p.results.getD [] = []) := by
  have hterm : isTerminalPayload p = true := by
    unfold isTerminalPayload
    rw [hfail]
    decide
  have hpoll : pollLoop pEnv pollMaxAttempts 0 none none = (some p, none) :=
    pollLoop_ok_first pEnv 0 none none p hp hterm pollMaxAttempts (by decide)
  have hupd : sendMp3Updates uEnv pEnv = [underReviewPatch, finalPayloadPatch p] := by
    unfold sendMp3Updates
    rw [if_neg (by decide : ¬(AI_BASE = "")), hu]
    show (match pollLoop pEnv pollMaxAttempts 0 none none with
      | (none, lastPollError) => [underReviewPatch, closedPatch (.pollTimeout lastPollError)]
      | (some q, _) => [underReviewPatch, finalPayloadPatch q]) = _
    rw [hpoll]
  obtain ⟨s', hs', hf'⟩ := sendMp3_found uEnv pEnv s rid r hrec
  rw [hupd] at hf'
  refine ⟨s', hs', applyPatch (applyPatch r underReviewPatch) (finalPayloadPatch p),
    hf', ?_, rfl, rfl, ?_⟩
  · show finalStatusOf p = RecStatus.closed
    unfold finalStatusOf
    rw [hfail]
    decide
  · show extractScore p = none ↔ p.results.getD [] = []
    exact extractScore_eq_none_iff p

/-- Witness for `claim_C1` at the concrete fixtures. -/
theorem claim_C1_witness :
    ∃ s', sendMp3ToAiAndUpdateRecording uEnvOkT pEnvFailedHalf store1 "r1" = .ok s' ∧
      ∃ r', findRec s' "r1" = some r' ∧
        r'.status = .closed ∧
        r'.ai_result = some (.payload cexFailedPayload) ∧
        r'.ai_score = extractScore cexFailedPayload ∧
        (r'.ai_score = none ↔ cexFailedPayload.results.getD [] = []) :=
  claim_C1 uEnvOkT pEnvFailedHalf store1 "r1" rec1 "task-1" none cexFailedPayload
    rfl rfl (by decide) rfl

/-! ## Claim C3 -/

/-- Claim C3, as stated, fails: a run of 120 successful in-progress poll
responses exhausts the attempt budget with no terminal status, yet the stored
`result` is the raw last payload, not a timeout diagnostic (`routes.ts:168`
only writes the timeout diagnostic when *no* successful poll response was
ever parsed). -/
theorem claim_C3_cex :
    sendMp3ToAiAndUpdateRecording uEnvOkT pEnvProcessing store1 "r1" =
      .ok ⟨[rec1ProcClosed], ⟨true⟩⟩ ∧
    AiResult.isPollTimeoutDiag (.payload processingPayload) = false := by
  refine ⟨?_, rfl⟩
  have hpoll : pollLoop pEnvProcessing pollMaxAttempts 0 none none =
      (some processingPayload, none) :=
    pollLoop_const_nonterminal pEnvProcessing processingPayload (fun _ => rfl)
      (by decide) pollMaxAttempts (by decide) 0 none none
  have hupd : sendMp3Updates uEnvOkT pEnvProcessing =
      [underReviewPatch, finalPayloadPatch processingPayload] := by
    unfold sendMp3Updates
    rw [if_neg (by decide : ¬(AI_BASE = ""))]
    rw [show uploadLoop uEnvOkT uploadRetries 0 none
      = (some (some "task-1"), none) from rfl]
    show (match pollLoop pEnvProcessing pollMaxAttempts 0 none none with
      | (none, lastPollError) => [underReviewPatch, closedPatch (.pollTimeout lastPollError)]
      | (some p, _) => [underReviewPatch, finalPayloadPatch p]) = _
    rw [hpoll]
  unfold sendMp3ToAiAndUpdateRecording
  rw [hupd]
  rfl

/-- Claim C3 amended: if the upload phase succeeds but the poll loop exhausts
its 120 attempts *without any successful poll response being parsed*, the
Recording ends `status=closed`, `score=null`, with a timeout diagnostic
carrying the last-seen poll error. -/
theorem claim_C3 (uEnv : ℕ → UploadResp) (pEnv : ℕ → PollResp) (s : Store)
    (rid : String) (r : Recording) (tid : String) (ue : Option UploadErr)
    (hu : uploadLoop uEnv uploadRetries 0 none = (some (some tid), ue))
    (hp : ∀ n, 1 ≤ n → n ≤ pollMaxAttempts → ∀ q, pEnv n ≠ .ok q)
    (hrec : findRec s rid = some r) :
    ∃ s', sendMp3ToAiAndUpdateRecording uEnv pEnv s rid = .ok s' ∧
      ∃ r', findRec s' rid = some r' ∧
        r'.status = .closed ∧
        r'.ai_score = none ∧
        r'.ai_result = some (.pollTimeout (lastPollErrThrough pEnv pollMaxAttempts)) := by
  have hpoll : pollLoop pEnv pollMaxAttempts 0 none none =
      (none, lastPollErrThrough pEnv pollMaxAttempts) := by
    rw [pollLoop_no_ok pEnv pollMaxAttempts 0 none
      (fun n h1 h2 q => hp n (by omega) (by omega) q)]
    rw [fwdLastErr_eq_lastPollErrThrough]
  have hupd : sendMp3Updates uEnv pEnv =
      [underReviewPatch, closedPatch (.pollTimeout (lastPollErrThrough pEnv pollMaxAttempts))] := by
    unfold sendMp3Updates
    rw [if_neg (by decide : ¬(AI_BASE = "")), hu]
    show (match pollLoop pEnv pollMaxAttempts 0 none none with
      | (none, lastPollError) => [underReviewPatch, closedPatch (.pollTimeout lastPollError)]
      | (some q, _) => [underReviewPatch, finalPayloadPatch q]) = _
    rw [hpoll]
  obtain ⟨s', hs', hf'⟩ := sendMp3_found uEnv pEnv s rid r hrec
  rw [hupd] at hf'
  exact ⟨s', hs', _, hf', rfl, rfl, rfl⟩

/-- Witness for `claim_C3` at the concrete fixtures. -/
theorem claim_C3_witness :
    ∃ s', sendMp3ToAiAndUpdateRecording uEnvOkT pEnvDown store1 "r1" = .ok s' ∧
      ∃ r', findRec s' "r1" = some r' ∧
        r'.status = .closed ∧
        r'.ai_score = none ∧
        r'.ai_result = some (.pollTimeout (lastPollErrThrough pEnvDown pollMaxAttempts)) :=
  claim_C3 uEnvOkT pEnvDown store1 "r1" rec1 "task-1" none rfl
    (fun _ _ _ _ h => PollResp.noConfusion h) rfl

/-! ## Claim C6 -/

/-- Claim C6: when every upload attempt fails (transport error or non-success
HTTP status), the run performs exactly one update — `status=closed`,
`score=null`, upload-failure diagnostic — and no update of the run ever sets
`under_review`. -/
theorem claim_C6 (uEnv : ℕ → UploadResp) (pEnv : ℕ → PollResp) (s : Store)
    (rid : String) (r : Recording)
    (hu : ∀ n, 1 ≤ n → n ≤ uploadRetries → ∀ t, uEnv n ≠ .ok t)
    (hrec : findRec s rid = some r) :
    ∃ s', sendMp3ToAiAndUpdateRecording uEnv pEnv s rid = .ok s' ∧
      (∃ r', findRec s' rid = some r' ∧ r'.status = .closed ∧ r'.ai_score = none) ∧
      ∀ pc ∈ sendMp3Updates uEnv pEnv, pc.status ≠ some .under_review := by
  have h1 : (uploadLoop uEnv uploadRetries 0 none).1 = none :=
    uploadLoop_no_ok uEnv uploadRetries 0 none
      (fun n ha hb t => hu n (by omega) (by omega) t)
  cases hE : uploadLoop uEnv uploadRetries 0 none with
  | mk fst snd =>
    rw [hE] at h1
    simp only at h1
    subst h1
    have hupd : sendMp3Updates uEnv pEnv = [closedPatch (.uploadFailed snd)] := by
      unfold sendMp3Updates
      rw [if_neg (by decide : ¬(AI_BASE = "")), hE]
    obtain ⟨s', hs', hf'⟩ := sendMp3_found uEnv pEnv s rid r hrec
    rw [hupd] at hf'
    refine ⟨s', hs', ⟨_, hf', rfl, rfl⟩, ?_⟩
    rw [hupd]
    intro pc hpc
    rw [List.mem_singleton] at hpc
    subst hpc
    simp [closedPatch]

/-- Witness for `claim_C6` at the concrete fixtures. -/
theorem claim_C6_witness :
    ∃ s', sendMp3ToAiAndUpdateRecording uEnvDown pEnvDown store1 "r1" = .ok s' ∧
      (∃ r', findRec s' "r1" = some r' ∧ r'.status = .closed ∧ r'.ai_score = none) ∧
      ∀ pc ∈ sendMp3Updates uEnvDown pEnvDown, pc.status ≠ some .under_review :=
  claim_C6 uEnvDown pEnvDown store1 "r1" rec1
    (fun _ _ _ _ h => UploadResp.noConfusion h) rfl

/-! ## Claim C7 -/

/-- A store holding no recordings, portal open. -/
def emptyStore : Store := { recordings := [], portal := { is_open := true } }

/-- Claim C7, as stated, fails: an update addressed to an id absent from the
store raises (`storage.ts:104` throws `"Recording not found"`) instead of
silently no-opping. -/
theorem claim_C7_cex :
    updateRecording emptyStore "x" pendingPatch = .error "Recording not found" := rfl

/-- Claim C7 amended: an update requested for a Recording id absent from the
store raises a `"Recording not found"` error (the failed call itself changes
nothing — `updateRecording` rejects before writing). -/
theorem claim_C7 (s : Store) (id : String) (pc : RecordingPatch)
    (h : findRec s id = none) :
    updateRecording s id pc = .error "Recording not found" := by
  unfold updateRecording
  rw [h]

/-- Witness for `claim_C7`: a stale id against a non-empty store. -/
theorem claim_C7_witness :
    updateRecording store1 "gone" pendingPatch = .error "Recording not found" :=
  claim_C7 store1 "gone" pendingPatch rfl

/-! ## Claim C2 -/

/-- Claim C2: after a hard restart, `listAll()` is empty and the portal is
open (relies on the spec-modelled `clearAllRecordings`). -/
theorem claim_C2 (s : Store) :
    getAllRecordings (restartHard s) = [] ∧
    (getPortalStatus (restartHard s)).is_open = true :=
  ⟨rfl, rfl⟩

/-- Witness for `claim_C2` at a concrete store. -/
theorem claim_C2_witness :
    getAllRecordings (restartHard store1) = [] ∧
    (getPortalStatus (restartHard store1)).is_open = true :=
  claim_C2 store1

/-! ## Claim C10 -/

/-- The closed Recording the conversion-failure branch leaves behind
(`routes.ts:248-249` followed by the `ai_result` update). -/
def convFailedRec (email fn msg newId : String) (now : ℕ) : Recording :=
  ⟨newId, email, "/uploads/" ++ fn, .closed, none, some (.convFailed msg), now⟩

/-- Claim C10: a submission whose conversion fails returns an error yet stores
a closed Recording for the identity, with the original upload as media
reference and the error as result; any subsequent submission with the same
identity (portal still open) is rejected as a duplicate with the store
unchanged — so the failed submission consumes the identity's slot. -/
theorem claim_C10 (s : Store) (email fn msg newId : String) (now : ℕ)
    (hopen : (getPortalStatus s).is_open = true)
    (hemail : ¬(email = ""))
    (hdup : getRecordingsByEmail s email = [])
    (hfresh : findRec s newId = none) :
    submit s email fn (.failed msg) newId now =
      (.conversionFailed msg,
        { s with recordings := (s.recordings ++ [convFailedRec email fn msg newId now]) }) ∧
    ∀ fn₂ conv₂ id₂ now₂,
      submit { s with recordings := (s.recordings ++ [convFailedRec email fn msg newId now]) }
          email fn₂ conv₂ id₂ now₂ =
        (.duplicate,
          { s with recordings := (s.recordings ++ [convFailedRec email fn msg newId now]) }) := by
  have hnomatch : ∀ x ∈ s.recordings, ¬(x.id == newId) = true :=
    List.find?_eq_none.mp hfresh
  constructor
  · unfold submit
    rw [if_neg hemail, hopen]
    simp only [Bool.not_true, Bool.false_eq_true, if_false, hdup,
      List.isEmpty_nil, Bool.not_false, if_false]
    have hupd : updateRecording
        (createRecording s newId email ("/uploads/" ++ fn) RecStatus.closed now).2
        (createRecording s newId email ("/uploads/" ++ fn) RecStatus.closed now).1.id
        { ai_score := some none, ai_result := some (some (.convFailed msg)) } =
        .ok { s with recordings := (s.recordings ++ [convFailedRec email fn msg newId now]) } := by
      show updateRecording
        { s with recordings := (s.recordings ++
            [(⟨newId, email, "/uploads/" ++ fn, .closed, none, none, now⟩ : Recording)]) }
        newId _ = _
      unfold updateRecording findRec
      rw [List.find?_append, List.find?_eq_none.mpr hnomatch, Option.none_or]
      rw [@List.find?_cons_of_pos _ (fun y : Recording => y.id == newId) _ []
        (by simp)]
      simp only [Except.ok.injEq, Store.mk.injEq, and_true]
      rw [List.map_append, List.map_congr_left
        (fun x hx => if_neg (hnomatch x hx))]
      simp [convFailedRec, applyPatch]
    rw [hupd]
  · intro fn₂ conv₂ id₂ now₂
    have hmem : convFailedRec email fn msg newId now ∈
        getRecordingsByEmail
          { s with recordings := (s.recordings ++ [convFailedRec email fn msg newId now]) }
          email := by
      unfold getRecordingsByEmail
      rw [List.mem_filter]
      exact ⟨by simp, by simp [convFailedRec]⟩
    have hne : (getRecordingsByEmail
        { s with recordings := (s.recordings ++ [convFailedRec email fn msg newId now]) }
        email).isEmpty = false := by
      cases hE : (getRecordingsByEmail
          { s with recordings := (s.recordings ++ [convFailedRec email fn msg newId now]) }
          email).isEmpty
      · rfl
      · rw [List.isEmpty_iff] at hE
        rw [hE] at hmem
        exact absurd hmem (List.not_mem_nil _)
    unfold submit
    rw [if_neg hemail]
    rw [show (getPortalStatus
        { s with recordings := (s.recordings ++ [convFailedRec email fn msg newId now]) }).is_open
      = true from hopen]
    simp only [Bool.not_true, Bool.false_eq_true, if_false]
    rw [hne]
    rfl

/-! ## Helper lemmas: bulk keyed updates (close portal, soft restart) -/

/-- The effect on one stored recording of one keyed update. -/
def keyedStep (r : Recording) (u : String × RecordingPatch) : Recording :=
  if r.id == u.1 then applyPatch r u.2 else r

@[simp] theorem keyedStep_id (r : Recording) (u : String × RecordingPatch) :
    (keyedStep r u).id = r.id := by
  unfold keyedStep
  split <;> simp

/-- A run of keyed updates whose target ids are all present succeeds, and its
effect is a pointwise map over the stored recordings. -/
theorem applyKeyedUpdates_map (ups : List (String × RecordingPatch)) :
    ∀ (s : Store), (∀ u ∈ ups, ∃ r ∈ s.recordings, r.id = u.1) →
      applyKeyedUpdates s ups =
        .ok { s with recordings :=
          (s.recordings.map (fun r => ups.foldl keyedStep r)) } := by
  induction ups with
  | nil =>
    intro s _
    simp only [applyKeyedUpdates, List.foldl_nil, List.map_id']
  | cons u us ih =>
    intro s hpres
    obtain ⟨r0, hr0, hid0⟩ := hpres u (List.mem_cons_self u us)
    obtain ⟨r', hr'⟩ : ∃ r', findRec s u.1 = some r' := by
      rw [← Option.isSome_iff_exists, findRec, List.find?_isSome]
      exact ⟨r0, hr0, by simp [hid0]⟩
    have hstep : updateRecording s u.1 u.2 =
        .ok { s with recordings := (s.recordings.map (fun r => keyedStep r u)) } := by
      unfold updateRecording keyedStep
      rw [hr']
    rw [applyKeyedUpdates, hstep]
    show applyKeyedUpdates
      { s with recordings := (s.recordings.map (fun r => keyedStep r u)) } us = _
    rw [ih _ ?_]
    · simp only [List.map_map]
      rfl
    · intro v hv
      obtain ⟨r, hr, hid⟩ := hpres v (List.mem_cons_of_mem u hv)
      exact ⟨keyedStep r u, List.mem_map_of_mem _ hr, by rw [keyedStep_id]; exact hid⟩

theorem foldl_keyedStep_no_match (ups : List (String × RecordingPatch)) :
    ∀ r : Recording, (∀ u ∈ ups, ¬(r.id = u.1)) → ups.foldl keyedStep r = r := by
  induction ups with
  | nil => intro r _; rfl
  | cons u us ih =>
    intro r h
    rw [List.foldl_cons]
    have hne : ¬((r.id == u.1) = true) := by
      simp only [beq_iff_eq]
      exact h u (List.mem_cons_self u us)
    have hstep : keyedStep r u = r := by
      unfold keyedStep
      rw [if_neg hne]
    rw [hstep]
    exact ih r (fun v hv => h v (List.mem_cons_of_mem u hv))

theorem foldl_keyedStep_single (ups : List (String × RecordingPatch)) :
    ∀ (r : Recording) (p : RecordingPatch),
      (ups.map Prod.fst).Nodup → (r.id, p) ∈ ups →
      ups.foldl keyedStep r = applyPatch r p := by
  induction ups with
  | nil => intro r p _ hmem; exact absurd hmem (List.not_mem_nil _)
  | cons u us ih =>
    intro r p hnodup hmem
    rw [List.map_cons, List.nodup_cons] at hnodup
    obtain ⟨hnd1, hnd2⟩ := hnodup
    rw [List.mem_cons] at hmem
    cases hmem with
    | inl heq =>
      have hu1 : u.1 = r.id := by rw [← heq]
      rw [List.foldl_cons]
      have hstep : keyedStep r u = applyPatch r p := by
        rw [← heq]
        unfold keyedStep
        rw [if_pos (by simp)]
      rw [hstep]
      apply foldl_keyedStep_no_match
      intro v hv hcontra
      apply hnd1
      have hv1 : u.1 = v.1 := by
        rw [hu1, ← hcontra]
        simp
      rw [hv1]
      exact List.mem_map_of_mem Prod.fst hv
    | inr hmem' =>
      have hu1 : ¬(u.1 = r.id) := by
        intro hcontra
        apply hnd1
        rw [hcontra]
        exact List.mem_map_of_mem Prod.fst hmem'
      rw [List.foldl_cons]
      have hstep : keyedStep r u = r := by
        unfold keyedStep
        rw [if_neg]
        simp only [beq_iff_eq]
        exact fun hh => hu1 hh.symm
      rw [hstep]
      exact ih r p hnd2 hmem'

theorem scoredUpdates_keys (draws : ℕ → ℚ) :
    ∀ (l : List Recording) (i : ℕ),
      (scoredUpdates draws i l).map Prod.fst = l.map Recording.id := by
  intro l
  induction l with
  | nil => intro i; rfl
  | cons r rs ih =>
    intro i
    simp only [scoredUpdates, List.map_cons]
    rw [ih]

theorem scoredUpdates_mem_of (draws : ℕ → ℚ) :
    ∀ (l : List Recording) (i : ℕ) (r : Recording), r ∈ l →
      ∃ j, (r.id, scoredPatch (fallbackScore (draws j))) ∈ scoredUpdates draws i l := by
  intro l
  induction l with
  | nil => intro i r h; exact absurd h (List.not_mem_nil _)
  | cons x xs ih =>
    intro i r h
    rw [List.mem_cons] at h
    cases h with
    | inl heq => exact ⟨i, by rw [heq]; exact List.mem_cons_self _ _⟩
    | inr h' =>
      obtain ⟨j, hj⟩ := ih (i + 1) r h'
      exact ⟨j, List.mem_cons_of_mem _ hj⟩

theorem scoredUpdates_mem (draws : ℕ → ℚ) :
    ∀ (l : List Recording) (i : ℕ) (u : String × RecordingPatch),
      u ∈ scoredUpdates draws i l → ∃ r ∈ l, r.id = u.1 := by
  intro l
  induction l with
  | nil => intro i u h; exact absurd h (List.not_mem_nil _)
  | cons x xs ih =>
    intro i u h
    rw [scoredUpdates, List.mem_cons] at h
    cases h with
    | inl heq => exact ⟨x, List.mem_cons_self _ _, by rw [heq]⟩
    | inr h' =>
      obtain ⟨r, hr, hid⟩ := ih (i + 1) u h'
      exact ⟨r, List.mem_cons_of_mem _ hr, hid⟩

theorem fallbackScore_bounds (q : ℚ) (h0 : 0 ≤ q) (h1 : q < 1) :
    0 ≤ fallbackScore q ∧ fallbackScore q ≤ 100 := by
  unfold fallbackScore
  constructor
  · exact Int.le_floor.mpr (by push_cast; positivity)
  · have hq : q * 101 < ((101:ℤ):ℚ) := by push_cast; nlinarith
    have := Int.floor_lt.mpr hq
    omega

/-! ## Claim C8 -/

/-- Claim C8: `closePortal` closes the portal, assigns every null-scored
Recording `status=scored` with a fallback score in `[0,100]`, and leaves every
already-scored Recording untouched in all fields. -/
theorem claim_C8 (draws : ℕ → ℚ) (s : Store)
    (hnodup : (s.recordings.map Recording.id).Nodup)
    (hdraws : ∀ n, 0 ≤ draws n ∧ draws n < 1) :
    ∃ s', closePortal draws s = .ok s' ∧
      (getPortalStatus s').is_open = false ∧
      s'.recordings.length = s.recordings.length ∧
      ∀ (i : ℕ) (hi : i < s.recordings.length),
        ((s.recordings[i]).ai_score = none →
          ∃ k : ℤ, 0 ≤ k ∧ k ≤ 100 ∧
            s'.recordings[i]? = some { s.recordings[i] with
              status := RecStatus.scored, ai_score := some k }) ∧
        ((s.recordings[i]).ai_score ≠ none →
          s'.recordings[i]? = some (s.recordings[i])) := by
  have hperm : (getAllRecordings s).Perm s.recordings := List.perm_insertionSort _ _
  have hpres : ∀ u ∈ scoredUpdates draws 0
      ((getAllRecordings s).filter (fun r => r.ai_score.isNone)),
      ∃ r ∈ (setPortalStatus s ⟨false⟩).recordings, r.id = u.1 := by
    intro u hu
    obtain ⟨r, hr, hid⟩ := scoredUpdates_mem draws _ 0 u hu
    exact ⟨r, hperm.mem_iff.mp (List.mem_of_mem_filter hr), hid⟩
  have hrun : closePortal draws s =
      .ok { setPortalStatus s ⟨false⟩ with recordings :=
        (s.recordings.map (fun r =>
          (scoredUpdates draws 0
            ((getAllRecordings s).filter (fun rr => rr.ai_score.isNone))).foldl
            keyedStep r)) } := by
    unfold closePortal
    exact applyKeyedUpdates_map _ _ hpres
  have hkeys : ((scoredUpdates draws 0
      ((getAllRecordings s).filter (fun rr => rr.ai_score.isNone))).map Prod.fst).Nodup := by
    rw [scoredUpdates_keys]
    exact List.Nodup.sublist
      (List.Sublist.map Recording.id (List.filter_sublist _))
      (((hperm.map Recording.id).nodup_iff).mpr hnodup)
  refine ⟨_, hrun, rfl, List.length_map _ _, ?_⟩
  intro i hi
  have hgete : ({ setPortalStatus s ⟨false⟩ with recordings :=
      (s.recordings.map (fun r =>
        (scoredUpdates draws 0
          ((getAllRecordings s).filter (fun rr => rr.ai_score.isNone))).foldl
          keyedStep r)) } : Store).recordings[i]? =
      some ((scoredUpdates draws 0
        ((getAllRecordings s).filter (fun rr => rr.ai_score.isNone))).foldl
        keyedStep (s.recordings[i])) := by
    show (s.recordings.map _)[i]? = _
    rw [List.getElem?_map, List.getElem?_eq_getElem hi]
    rfl
  constructor
  · intro hnone
    have hfilter : s.recordings[i] ∈
        (getAllRecordings s).filter (fun rr => rr.ai_score.isNone) := by
      rw [List.mem_filter]
      exact ⟨hperm.mem_iff.mpr (List.getElem_mem hi),
        Option.isNone_iff_eq_none.mpr hnone⟩
    obtain ⟨j, hj⟩ := scoredUpdates_mem_of draws _ 0 _ hfilter
    obtain ⟨hk0, hk1⟩ := fallbackScore_bounds (draws j) (hdraws j).1 (hdraws j).2
    refine ⟨fallbackScore (draws j), hk0, hk1, ?_⟩
    rw [hgete, foldl_keyedStep_single _ _ _ hkeys hj]
    rfl
  · intro hsome
    have hnomatch : ∀ u ∈ scoredUpdates draws 0
        ((getAllRecordings s).filter (fun rr => rr.ai_score.isNone)),
        ¬((s.recordings[i]).id = u.1) := by
      intro u hu hcontra
      obtain ⟨r', hr', hid'⟩ := scoredUpdates_mem draws _ 0 u hu
      have hr'mem : r' ∈ s.recordings :=
        hperm.mem_iff.mp (List.mem_of_mem_filter hr')
      have hreq : r' = s.recordings[i] :=
        List.inj_on_of_nodup_map hnodup hr'mem (List.getElem_mem hi)
          (by rw [hid', ← hcontra])
      have hfil := (List.mem_filter.mp hr').2
      rw [hreq, Option.isNone_iff_eq_none] at hfil
      exact hsome hfil
    rw [hgete, foldl_keyedStep_no_match _ _ hnomatch]

/-- A second stored recording, already scored. -/
def recScored : Recording :=
  ⟨"r2", "b@example.com", "/uploads/y.mp3", .scored, some 77, none, 1⟩

/-- A store with one null-scored and one scored recording, portal open. -/
def store2 : Store := { recordings := [rec1, recScored], portal := { is_open := true } }

/-- A `Math.random()` oracle that always draws 0. -/
def zeroDraws : ℕ → ℚ := fun _ => 0

/-- Witness for `claim_C8` at the concrete fixtures. -/
theorem claim_C8_witness :
    ∃ s', closePortal zeroDraws store2 = .ok s' ∧
      (getPortalStatus s').is_open = false ∧
      s'.recordings.length = store2.recordings.length ∧
      ∀ (i : ℕ) (hi : i < store2.recordings.length),
        ((store2.recordings[i]).ai_score = none →
          ∃ k : ℤ, 0 ≤ k ∧ k ≤ 100 ∧
            s'.recordings[i]? = some { store2.recordings[i] with
              status := RecStatus.scored, ai_score := some k }) ∧
        ((store2.recordings[i]).ai_score ≠ none →
          s'.recordings[i]? = some (store2.recordings[i])) :=
  claim_C8 zeroDraws store2 (by decide) (fun _ => ⟨le_refl 0, zero_lt_one⟩)

/-! ## Claim C9 -/

/-- Claim C9: after a soft restart the portal is open and every previously
existing Recording has `status=pending`, `score=null`, `result=null`, with its
`id`, `email`, `audio_url` and `created_at` unchanged. -/
theorem claim_C9 (s : Store) (hnodup : (s.recordings.map Recording.id).Nodup) :
    ∃ s', restartSoft s = .ok s' ∧
      (getPortalStatus s').is_open = true ∧
      s'.recordings.length = s.recordings.length ∧
      ∀ (i : ℕ) (hi : i < s.recordings.length),
        s'.recordings[i]? = some { s.recordings[i] with
          status := RecStatus.pending, ai_score := none, ai_result := none } := by
  have hperm : (getAllRecordings s).Perm s.recordings := List.perm_insertionSort _ _
  have hpres : ∀ u ∈ (getAllRecordings s).map (fun r => (r.id, pendingPatch)),
      ∃ r ∈ (setPortalStatus s ⟨true⟩).recordings, r.id = u.1 := by
    intro u hu
    obtain ⟨r, hr, heq⟩ := List.mem_map.mp hu
    exact ⟨r, hperm.mem_iff.mp hr, by rw [← heq]⟩
  have hrun : restartSoft s =
      .ok { setPortalStatus s ⟨true⟩ with recordings :=
        (s.recordings.map (fun r =>
          ((getAllRecordings s).map (fun rr => (rr.id, pendingPatch))).foldl
            keyedStep r)) } := by
    unfold restartSoft
    exact applyKeyedUpdates_map _ _ hpres
  have hkeys : (((getAllRecordings s).map (fun rr => (rr.id, pendingPatch))).map
      Prod.fst).Nodup := by
    rw [List.map_map]
    show ((getAllRecordings s).map Recording.id).Nodup
    exact ((hperm.map Recording.id).nodup_iff).mpr hnodup
  refine ⟨_, hrun, rfl, List.length_map _ _, ?_⟩
  intro i hi
  have hmem : ((s.recordings[i]).id, pendingPatch) ∈
      (getAllRecordings s).map (fun rr => (rr.id, pendingPatch)) :=
    List.mem_map_of_mem _ (hperm.mem_iff.mpr (List.getElem_mem hi))
  show (s.recordings.map _)[i]? = _
  rw [List.getElem?_map, List.getElem?_eq_getElem hi]
  show some (((getAllRecordings s).map (fun rr => (rr.id, pendingPatch))).foldl
    keyedStep (s.recordings[i])) = _
  rw [foldl_keyedStep_single _ _ _ hkeys hmem]
  rfl

/-- Witness for `claim_C9` at the concrete fixtures. -/
theorem claim_C9_witness :
    ∃ s', restartSoft store2 = .ok s' ∧
      (getPortalStatus s').is_open = true ∧
      s'.recordings.length = store2.recordings.length ∧
      ∀ (i : ℕ) (hi : i < store2.recordings.length),
        s'.recordings[i]? = some { store2.recordings[i] with
          status := RecStatus.pending, ai_score := none, ai_result := none } :=
  claim_C9 store2 (by decide)

/-- Witness for `claim_C10` at concrete inputs. -/
theorem claim_C10_witness :
    submit emptyStore "a@example.com" "f.webm" (.failed "boom") "u1" 0 =
      (.conversionFailed "boom",
        { emptyStore with recordings := (emptyStore.recordings ++
            [convFailedRec "a@example.com" "f.webm" "boom" "u1" 0]) }) ∧
    ∀ fn₂ conv₂ id₂ now₂,
      submit { emptyStore with recordings := (emptyStore.recordings ++
            [convFailedRec "a@example.com" "f.webm" "boom" "u1" 0]) }
          "a@example.com" fn₂ conv₂ id₂ now₂ =
        (.duplicate,
          { emptyStore with recordings := (emptyStore.recordings ++
              [convFailedRec "a@example.com" "f.webm" "boom" "u1" 0]) }) :=
  claim_C10 emptyStore "a@example.com" "f.webm" "boom" "u1" 0 rfl
    (by decide) rfl rfl

end Pingdoh
